import Mathlib

/-!
Verification of the CDP relay core of the playwright-mcp repository.

The development shallowly embeds the relay components:
- the length-prefixed framing decoder of `NativeMessagingHost`
  (extension/src/nativeMessagingHost.ts);
- the correlation-id request tracker `ExtensionConnection`
  (extension/crx/src/connect.ts);
- the `CDPRelayServer` message handlers (extension/crx/src/connect.ts);
- the extension-side `RelayConnection` debugger adapter (relayConnection.ts).

Pure functions of the source become Lean functions; stateful handlers become
functions from an explicit state to a new state together with an ordered
trace of their observable effects.
-/

namespace PlaywrightMcp

/-- A minimal JSON value type standing for the untyped JavaScript objects
flowing through the relay. -/
inductive J where
  | null
  | bool (b : Bool)
  | num (n : Int)
  | str (s : String)
  | obj (fields : List (String × J))
  deriving Repr

/-! ## Transport framing codec (`NativeMessagingHost`)

The stdin data handler of `NativeMessagingHost` keeps two pieces of state
across chunks: the byte `buffer` and `frameLen` (−1, modelled as `none`,
while waiting for a length prefix).  On each chunk it appends the chunk to
the buffer and drains complete frames in a loop.  `JSON.parse` is a
JavaScript builtin external to the repository; the decoder is therefore
parameterised by an arbitrary parse function `parse` returning either a
parsed value or an error message. -/

/-- Embeds `buffer.readUInt32LE(0)`: the 32-bit little-endian value of the first
four buffered bytes. -/
def readUInt32LE (b0 b1 b2 b3 : Nat) : Nat :=
  b0 + 256 * b1 + 65536 * b2 + 16777216 * b3

/-- Embeds `headerBuffer.writeUInt32LE(n, 0)`: the four little-endian bytes of `n`. -/
def writeUInt32LE (n : Nat) : List Nat :=
  [n % 256, n / 256 % 256, n / 65536 % 256, n / 16777216 % 256]

/-- Observable effects of the stdin data handler: a successfully parsed
message delivered to `onMessage`, or a framed error envelope written back
to the peer via `sendMessage` when `JSON.parse` fails. -/
inductive HostOut (V : Type) where
  | message (v : V)
  | errorToPeer (s : String)
  deriving Repr, DecidableEq

/-- The try/catch around `JSON.parse(messageBuffer.toString())`: on success
the message goes to `onMessage`, on failure a framed error envelope
`Failed to parse message: ...` is sent to the peer. -/
def handleFrame {V : Type} (parse : List Nat → Except String V) (payload : List Nat) :
    HostOut V :=
  match parse payload with
  | .ok v => .message v
  | .error e => .errorToPeer ("Failed to parse message: " ++ e)

/-- The drain loop (`while (buffer.length > 0) ...`) of the stdin data
handler.  Returns the final `frameLen`, the remaining buffered bytes, and
the ordered outputs.  The first clause is the loop guard; the second clause
is an iteration entered with `frameLen` already set (carried over from a
previous chunk); the third clause reads a length prefix and processes the
frame body within the same iteration; the fourth clause is the
`buffer.length < 4` break. -/
def processBuffer {V : Type} (parse : List Nat → Except String V) :
    Option Nat → List Nat → Option Nat × List Nat × List (HostOut V)
  | fl, [] => (fl, [], [])
  | some k, b :: buffer =>
    if (b :: buffer).length < k then (some k, b :: buffer, [])
    else
      let r := processBuffer parse none ((b :: buffer).drop k)
      (r.1, r.2.1, handleFrame parse ((b :: buffer).take k) :: r.2.2)
  | none, b0 :: b1 :: b2 :: b3 :: rest =>
    let k := readUInt32LE b0 b1 b2 b3
    if rest.length < k then (some k, rest, [])
    else
      let r := processBuffer parse none (rest.drop k)
      (r.1, r.2.1, handleFrame parse (rest.take k) :: r.2.2)
  | none, buffer => (none, buffer, [])
termination_by fl buffer => 2 * buffer.length + (match fl with | some _ => 1 | none => 0)
decreasing_by
  · simp only [List.length_drop, List.length_cons]
    omega
  · simp only [List.length_drop, List.length_cons]
    omega

/-- The persistent decoder state: `let buffer = Buffer.alloc(0)` and
`let frameLen = -1` (`none`). -/
structure DecState where
  buffer : List Nat
  frameLen : Option Nat
  deriving Repr, DecidableEq

/-- Initial decoder state. -/
def initDecState : DecState := ⟨[], none⟩

/-- One invocation of the stdin `data` handler:
`buffer = Buffer.concat([buffer, chunk])` followed by the drain loop. -/
def feed {V : Type} (parse : List Nat → Except String V) (s : DecState)
    (chunk : List Nat) : DecState × List (HostOut V) :=
  let r := processBuffer parse s.frameLen (s.buffer ++ chunk)
  (⟨r.2.1, r.1⟩, r.2.2)

/-- Feeding a sequence of chunks one handler invocation at a time,
concatenating the outputs in order. -/
def feedAll {V : Type} (parse : List Nat → Except String V) (s : DecState) :
    List (List Nat) → DecState × List (HostOut V)
  | [] => (s, [])
  | c :: cs =>
    let r := feed parse s c
    let r2 := feedAll parse r.1 cs
    (r2.1, r.2 ++ r2.2)

/-- Framing of `NativeMessagingHost.sendMessage`: the 4-byte little-endian
length prefix followed by the payload bytes. -/
def frameBytes (payload : List Nat) : List Nat :=
  writeUInt32LE payload.length ++ payload

/-- A state from which the drain loop makes no progress: the loop has
stopped with these buffered bytes and this pending frame length. -/
def Stuck {V : Type} (parse : List Nat → Except String V) (s : DecState) : Prop :=
  processBuffer parse s.frameLen s.buffer = (s.frameLen, s.buffer, [])

/-! ## Correlation-id request tracker (`ExtensionConnection`)

`ExtensionConnection` owns `_lastId` and the `_callbacks` map from request
id to the pending promise of one `send` call.  The embedding keeps the ids
of the pending entries (in insertion order) and reports the observable
effects of each operation as an ordered trace: wire messages handed to the
transport, promise settlements, event dispatches to `onmessage`, and
`onclose` invocations. -/

/-- How a pending promise settles: `resolve(object.result)` or
`reject(new Error(...))` with the given error message. -/
inductive Outcome where
  | resolved (result : Option J)
  | rejected (message : String)
  deriving Repr

/-- A parsed message arriving from the transport
(`_handleParsedMessage(object)`).  `id = none` models an absent `id`
field; `error = some m` models a present `error` object whose `message`
is `m`; `result = none` models an absent `result` field. -/
structure WireResponse where
  id : Option Nat := none
  result : Option J := none
  error : Option String := none
  method : Option String := none
  params : Option J := none

/-- Observable effects of the tracker. -/
inductive ConnEvent where
  | sent (id : Nat) (method : String) (params : Option J) (sessionId : Option String)
  | settled (id : Nat) (outcome : Outcome)
  | dispatched (method : Option String) (params : Option J)
  | oncloseFired
  deriving Repr

/-- The mutable fields of `ExtensionConnection`: `_lastId` and the key set
of `_callbacks` in insertion order. -/
structure ExtConn where
  lastId : Nat
  callbacks : List Nat
  deriving Repr, DecidableEq

/-- The freshly constructed connection: `_lastId = 0`, empty `_callbacks`. -/
def initExtConn : ExtConn := ⟨0, []⟩

namespace ExtConn

/-- Embeds `ExtensionConnection.send(method, params, sessionId)`: allocates
`id = ++lastId`, hands `{id, method, params, sessionId}` to the transport,
and registers the callback pair under `id`. -/
def send (c : ExtConn) (method : String) (params : Option J)
    (sessionId : Option String) : ExtConn × List ConnEvent :=
  let id := c.lastId + 1
  (⟨id, c.callbacks ++ [id]⟩, [.sent id method params sessionId])

/-- The settlement performed for a matched response: reject with
`object.error.message` when an `error` field is present, resolve with
`object.result` otherwise. -/
def outcomeOf (m : WireResponse) : Outcome :=
  match m.error with
  | some e => .rejected e
  | none => .resolved m.result

/-- Embeds `ExtensionConnection._handleParsedMessage(object)`: a truthy `id` held
in `_callbacks` settles and removes exactly that entry; a truthy unknown
`id` is only logged; anything else is dispatched to `onmessage`. -/
def handleParsedMessage (c : ExtConn) (m : WireResponse) : ExtConn × List ConnEvent :=
  match m.id with
  | some (i + 1) =>
    if c.callbacks.contains (i + 1) then
      (⟨c.lastId, c.callbacks.erase (i + 1)⟩, [.settled (i + 1) (outcomeOf m)])
    else
      (c, [])
  | _ => (c, [.dispatched m.method m.params])

/-- Embeds `ExtensionConnection.close(message)`: logs and invokes the `onclose`
callback.  It does not touch `_callbacks` (the `ws.close` call of the
earlier WebSocket transport is commented out in the source, and nothing
registers `_onClose` on the `NativeMessagingHost` transport). -/
def close (c : ExtConn) : ExtConn × List ConnEvent :=
  (c, [.oncloseFired])

/-- Embeds `ExtensionConnection._dispose()`: rejects every pending callback with
a channel-closed error and clears the table.  In the source it is reachable
only from `_onClose`, which no code path ever registers. -/
def dispose (c : ExtConn) : ExtConn × List ConnEvent :=
  (⟨c.lastId, []⟩, c.callbacks.map (fun i => .settled i (.rejected "WebSocket closed")))

end ExtConn

/-- One step of an interleaved usage of the connection: a `send` call or
the arrival of one parsed message from the transport. -/
inductive ConnOp where
  | send (method : String) (params : Option J) (sessionId : Option String)
  | deliver (m : WireResponse)

/-- Running a sequence of operations, concatenating the effect traces. -/
def runConn (c : ExtConn) : List ConnOp → ExtConn × List ConnEvent
  | [] => (c, [])
  | op :: ops =>
    let r := match op with
      | .send m p sid => c.send m p sid
      | .deliver msg => c.handleParsedMessage msg
    let r2 := runConn r.1 ops
    (r2.1, r.2 ++ r2.2)

/-- Ids handed to the transport by `send`, in order. -/
def sentIds (es : List ConnEvent) : List Nat :=
  es.filterMap fun e => match e with | .sent i _ _ _ => some i | _ => none

/-- Settlements appearing in a trace, in order. -/
def settlements (es : List ConnEvent) : List (Nat × Outcome) :=
  es.filterMap fun e => match e with | .settled i o => some (i, o) | _ => none

/-- Number of `send` operations. -/
def numSends (ops : List ConnOp) : Nat :=
  (ops.filter fun op => match op with | .send _ _ _ => true | _ => false).length

/-- A run in which responses answer actual earlier calls: each delivered
message bears the id of a previously allocated call (ids are allocated
`1, 2, ...` in order, so after `sent` sends the allocated ids are
`1 .. sent`), and no id is answered twice.  Any permutation and any
interleaving of the responses with later sends satisfies this. -/
def wellFormedRun (sent : Nat) (delivered : List Nat) : List ConnOp → Bool
  | [] => true
  | .send _ _ _ :: ops => wellFormedRun (sent + 1) delivered ops
  | .deliver m :: ops =>
    match m.id with
    | some i =>
      decide (1 ≤ i) && decide (i ≤ sent) && !(delivered.contains i) &&
        wellFormedRun sent (i :: delivered) ops
    | none => false

/-- The (id, outcome) pairs of the delivered responses, in delivery order
(`0` standing for a missing id, which `wellFormedRun` rules out). -/
def deliveredPairs (ops : List ConnOp) : List (Nat × Outcome) :=
  ops.filterMap fun op => match op with
    | .deliver m => some (m.id.getD 0, ExtConn.outcomeOf m)
    | _ => none

/-- The tracker invariant threaded through a run: `lastId` counts the sends
so far, and the pending table holds exactly the allocated ids that have not
been answered yet, without duplicates. -/
def TrackerInv (sent : Nat) (delivered : List Nat) (c : ExtConn) : Prop :=
  c.lastId = sent ∧ c.callbacks.Nodup ∧
    (∀ i, i ∈ c.callbacks ↔ (1 ≤ i ∧ i ≤ sent ∧ i ∉ delivered)) ∧
    (∀ i ∈ delivered, 1 ≤ i ∧ i ≤ sent)

/-! ## CDP relay server (`CDPRelayServer`)

The relay holds the consumer WebSocket, the extension connection and the
cached `ConnectionInfo`.  Handlers are embedded as functions from the
relay state to an ordered trace of primitive effects; the state after a
handler is obtained by folding `applyAction` over its trace.  The value a
suspended `await extensionConnection.send(...)` eventually settles with is
supplied by an oracle `ExtResponder`, one field per relay verb. -/

/-- The field `this._connectionInfo`: the attached target as stored by the relay
(`targetInfo` kept as its JavaScript object fields, plus the page
`sessionId`). -/
structure ConnectionInfo where
  targetInfo : List (String × J)
  sessionId : String

/-- A consumer WebSocket, identified by `id` (standing for JavaScript
object identity) with its `readyState`. -/
structure WSocket where
  id : Nat
  readyState : Nat
  deriving Repr, DecidableEq

/-- Constant `websocket.WebSocket.OPEN`. -/
def WebSocketOPEN : Nat := 1

/-- A message sent over the extension connection by
`this._extensionConnection.send(method, params)`. -/
inductive ExtMsg where
  | attachToTab
  | detachFromTab
  | forwardCDPCommand (sessionId : Option String) (method : String) (params : Option J)

/-- The `error` object of a CDP response. -/
structure ErrorObj where
  message : String

/-- A message sent to the consumer socket (`CDPResponse` in the source). -/
structure CDPResponse where
  id : Option Nat := none
  sessionId : Option String := none
  method : Option String := none
  params : Option J := none
  result : Option J := none
  error : Option ErrorObj := none

/-- A command arriving from the consumer (`CDPCommand` in the source). -/
structure CDPCommand where
  id : Nat
  sessionId : Option String := none
  method : String
  params : Option J := none

/-- The relay state touched by the embedded handlers. -/
structure RelayState where
  playwrightSocket : Option WSocket := none
  extensionConnected : Bool := false
  connectionInfo : Option ConnectionInfo := none

/-- Primitive effects of the relay handlers, in program order. -/
inductive RelayAction where
  | toPlaywright (m : CDPResponse)
  | toExtension (m : ExtMsg)
  | setConnectionInfo (i : Option ConnectionInfo)
  | setPlaywrightSocket (s : Option WSocket)
  | closeSocket (sockId : Nat) (code : Nat) (reason : String)

/-- The state change performed by one primitive effect. -/
def applyAction (s : RelayState) : RelayAction → RelayState
  | .toPlaywright _ => s
  | .toExtension _ => s
  | .setConnectionInfo i => { s with connectionInfo := i }
  | .setPlaywrightSocket o => { s with playwrightSocket := o }
  | .closeSocket _ _ _ => s

/-- Folding the effects of a trace over a state. -/
def applyActions (s : RelayState) (as : List RelayAction) : RelayState :=
  as.foldl applyAction s

/-- The oracle supplying the value each awaited extension round-trip
settles with (`.error` for a rejected promise). -/
structure ExtResponder where
  attachToTab : Except String ConnectionInfo
  forwardCDPCommand : Option String → String → Option J → Except String J

/-- The static result of the intercepted `Browser.getVersion`. -/
def versionResult : J :=
  J.obj [("protocolVersion", J.str "1.3"),
    ("product", J.str "Chrome/Extension-Bridge"),
    ("userAgent", J.str "CDP-Bridge-Server/1.0.0")]

/-- The JavaScript object spread with one overriding key, as in
`{...targetInfo, attached: true}`: an existing key is replaced in place,
a new key is appended. -/
def jsSpreadSet (fs : List (String × J)) (k : String) (v : J) : List (String × J) :=
  if fs.any (fun p => p.1 = k) then
    fs.map (fun p => if p.1 = k then (k, v) else p)
  else fs ++ [(k, v)]

/-- The fabricated `Target.attachedToTarget` event emitted for a root
`Target.setAutoAttach`, carrying the stored target info with
`attached: true` and the stored session id. -/
def attachedToTargetEvent (info : ConnectionInfo) : CDPResponse :=
  { method := some "Target.attachedToTarget",
    params := some (J.obj [
      ("sessionId", J.str info.sessionId),
      ("targetInfo", J.obj (jsSpreadSet info.targetInfo "attached" (J.bool true))),
      ("waitingForDebugger", J.bool false)]) }

/-- JavaScript truthiness of an optional string field, as tested by
`if (!message.sessionId)`: absent and the empty string are falsy. -/
def strTruthy : Option String → Bool
  | some s => !(s == "")
  | none => false

/-- Embeds `CDPRelayServer._forwardToExtension(message)`: inside its try/catch it
throws when no extension connection is held, otherwise awaits
`send("forwardCDPCommand", {sessionId, method, params})` and relays the
result under the original id and session id; any error is converted into a
CDP error response. -/
def forwardToExtension (ext : ExtResponder) (s : RelayState) (message : CDPCommand) :
    List RelayAction :=
  if s.extensionConnected then
    .toExtension (.forwardCDPCommand message.sessionId message.method message.params) ::
      (match ext.forwardCDPCommand message.sessionId message.method message.params with
        | .ok r =>
          [.toPlaywright
            { id := some message.id, sessionId := message.sessionId, result := some r }]
        | .error e =>
          [.toPlaywright
            { id := some message.id, sessionId := message.sessionId, error := some ⟨e⟩ }])
  else
    [.toPlaywright
      { id := some message.id, sessionId := message.sessionId,
        error := some ⟨"Extension not connected"⟩ }]

/-- Embeds `CDPRelayServer._interceptCDPCommand(message)`: `none` when the method
is not intercepted (the source returns `false` and the caller forwards).
For an intercepted method, the trace of effects together with the outcome
of the enclosing async call (`.error` when an awaited round-trip rejected
and the exception propagates). -/
def interceptCDPCommand (ext : ExtResponder) (s : RelayState) (message : CDPCommand) :
    Option (List RelayAction × Except String Unit) :=
  if message.method = "Browser.getVersion" then
    some ([.toPlaywright { id := some message.id, result := some versionResult }], .ok ())
  else if message.method = "Browser.setDownloadBehavior" then
    some ([.toPlaywright { id := some message.id }], .ok ())
  else if message.method = "Target.setAutoAttach" then
    if strTruthy message.sessionId = false then
      match ext.attachToTab with
      | .ok info =>
        some ([.toExtension .attachToTab,
          .setConnectionInfo (some info),
          .toPlaywright (attachedToTargetEvent info),
          .toPlaywright { id := some message.id }], .ok ())
      | .error e =>
        some ([.toExtension .attachToTab], .error e)
    else
      some (forwardToExtension ext s message, .ok ())
  else if message.method = "Target.getTargetInfo" then
    some ([.toPlaywright
      { id := some message.id,
        result := s.connectionInfo.map (fun i => J.obj i.targetInfo) }], .ok ())
  else
    none

/-- Embeds `CDPRelayServer._handlePlaywrightMessage(message)`: with no extension
connection the consumer is answered immediately with an
"Extension not connected" error; otherwise the command is intercepted or
forwarded. -/
def handlePlaywrightMessage (ext : ExtResponder) (s : RelayState) (message : CDPCommand) :
    List RelayAction × Except String Unit :=
  if s.extensionConnected = false then
    ([.toPlaywright { id := some message.id, error := some ⟨"Extension not connected"⟩ }],
      .ok ())
  else
    match interceptCDPCommand ext s message with
    | some r => r
    | none => (forwardToExtension ext s message, .ok ())

/-- The "close" handler installed on the consumer socket by
`_acceptPlaywrightConnection`: when the closing socket is still the
current one, it runs `_detachDebugger()` (which first sets
`_connectionInfo = undefined` and then sends `detachFromTab` to the
extension connection, if any) and then clears `_playwrightSocket`.
Socket identity (`===`) is modelled by the socket id. -/
def onPlaywrightClose (s : RelayState) (wsId : Nat) : List RelayAction :=
  match s.playwrightSocket with
  | some cur =>
    if cur.id = wsId then
      .setConnectionInfo none ::
        ((if s.extensionConnected then [.toExtension .detachFromTab] else []) ++
          [.setPlaywrightSocket none])
    else []
  | none => []

/-- Embeds `CDPRelayServer._acceptPlaywrightConnection(ws)`: an open previous
consumer socket is closed with code 1000 and reason
"New connection established", then the new socket is installed. -/
def acceptPlaywrightConnection (s : RelayState) (ws : WSocket) : List RelayAction :=
  (match s.playwrightSocket with
    | some old =>
      if old.readyState = WebSocketOPEN then
        [.closeSocket old.id 1000 "New connection established"]
      else []
    | none => []) ++ [.setPlaywrightSocket (some ws)]

/-! ## Extension-side debugger adapter (`RelayConnection`)

`RelayConnection._onCommand("detachFromTab")` returns
`await this.detachDebugger()` with no try/catch, and `detachDebugger`
awaits `chrome.debugger.detach(this._debuggee)` directly.  The
`chrome.debugger` extension API is external to the repository; its detach
behaviour is modelled below. -/

/-- Model of the external `chrome.debugger.detach(debuggee)` call for one
tab, over the attachment state of the native debugger: detaching an
attached debugger succeeds (leaving it detached); detaching when no
debugger is attached rejects.  The repository itself documents this
behaviour where it wraps the same call in a try/catch with the comment
"Ignore detach errors - might already be detached"
(extension/mcp-server/src/program.ts). -/
def chromeDebuggerDetach (attached : Bool) : Except String Bool :=
  if attached then .ok false
  else .error "Debugger is not attached to the tab"

/-- Embeds `RelayConnection.detachDebugger()`:
`await chrome.debugger.detach(this._debuggee)`, no catch. -/
def detachDebugger (attached : Bool) : Except String Bool :=
  chromeDebuggerDetach attached

/-- The `detachFromTab` branch of `RelayConnection._onCommand`:
`return await this.detachDebugger()`, no catch. -/
def onCommandDetachFromTab (attached : Bool) : Except String Bool :=
  detachDebugger attached

/-- Action `a` occurs strictly before action `b` in the trace `l`. -/
def precedesIn (a b : RelayAction) (l : List RelayAction) : Prop :=
  ∃ l1 l2 l3, l = l1 ++ a :: l2 ++ b :: l3

theorem processBuffer_some_stuck {V : Type} (parse : List Nat → Except String V)
    (k : Nat) (l : List Nat) (h : l.length < k) :
    processBuffer parse (some k) l = (some k, l, []) := by
  cases l with
  | nil => simp [processBuffer]
  | cons x buf =>
    have h2 : buf.length + 1 < k := by simpa using h
    simp [processBuffer, h2]

theorem processBuffer_some_frame {V : Type} (parse : List Nat → Except String V)
    (k : Nat) (l : List Nat) (h0 : l ≠ []) (h : ¬ l.length < k) :
    processBuffer parse (some k) l =
      ((processBuffer parse none (l.drop k)).1,
        (processBuffer parse none (l.drop k)).2.1,
        handleFrame parse (l.take k) :: (processBuffer parse none (l.drop k)).2.2) := by
  cases l with
  | nil => exact absurd rfl h0
  | cons x buf =>
    have h2 : ¬ buf.length + 1 < k := by simpa using h
    simp [processBuffer, h2]

/-- Draining `a ++ b` is draining `a`, then draining the residue of `a`
followed by `b`, with the outputs concatenated in order. -/
theorem processBuffer_append {V : Type} (parse : List Nat → Except String V)
    (fl : Option Nat) (a b : List Nat) :
    processBuffer parse fl (a ++ b) =
      ((processBuffer parse (processBuffer parse fl a).1
          ((processBuffer parse fl a).2.1 ++ b)).1,
        (processBuffer parse (processBuffer parse fl a).1
          ((processBuffer parse fl a).2.1 ++ b)).2.1,
        (processBuffer parse fl a).2.2 ++
          (processBuffer parse (processBuffer parse fl a).1
            ((processBuffer parse fl a).2.1 ++ b)).2.2) := by
  induction fl, a using processBuffer.induct parse
  case case1 fl => simp [processBuffer]
  case case2 k x buf h =>
    rw [processBuffer_some_stuck parse k (x :: buf) h]
    simp
  case case3 k x buf h ih =>
    have hk : k ≤ (x :: buf).length := Nat.le_of_not_lt h
    have h2 : ¬ ((x :: buf) ++ b).length < k := by
      rw [List.length_append]; omega
    rw [processBuffer_some_frame parse k ((x :: buf) ++ b) (by simp) h2,
      processBuffer_some_frame parse k (x :: buf) (by simp) h,
      List.take_append_of_le_length hk, List.drop_append_of_le_length hk, ih]
    simp
  case case4 b0 b1 b2 b3 rest k h =>
    by_cases h2 : (rest ++ b).length < readUInt32LE b0 b1 b2 b3
    · rw [show (b0 :: b1 :: b2 :: b3 :: rest) ++ b = b0 :: b1 :: b2 :: b3 :: (rest ++ b) from rfl]
      simp only [processBuffer, h, h2, if_pos]
      rw [processBuffer_some_stuck parse _ (rest ++ b) h2]
      simp
    · rw [show (b0 :: b1 :: b2 :: b3 :: rest) ++ b = b0 :: b1 :: b2 :: b3 :: (rest ++ b) from rfl]
      have hne : rest ++ b ≠ [] := by
        intro he
        rw [he] at h2
        simp at h2
        omega
      simp only [processBuffer, h, h2, if_pos, if_neg]
      rw [processBuffer_some_frame parse _ (rest ++ b) hne h2]
      simp
  case case5 b0 b1 b2 b3 rest k h ih =>
    have hk : readUInt32LE b0 b1 b2 b3 ≤ rest.length := Nat.le_of_not_lt h
    have h2 : ¬ (rest ++ b).length < readUInt32LE b0 b1 b2 b3 := by
      rw [List.length_append]; omega
    rw [show (b0 :: b1 :: b2 :: b3 :: rest) ++ b = b0 :: b1 :: b2 :: b3 :: (rest ++ b) from rfl]
    simp only [processBuffer, h, h2, if_neg]
    rw [List.take_append_of_le_length hk, List.drop_append_of_le_length hk, ih]
    simp
  case case6 buf h1 h2 =>
    have : processBuffer parse none buf = (none, buf, []) := by
      match buf, h1, h2 with
      | [], h1, _ => simp [processBuffer]
      | [x], _, _ => simp [processBuffer]
      | [x, y], _, _ => simp [processBuffer]
      | [x, y, z], _, _ => simp [processBuffer]
      | x :: y :: z :: w :: rest, h1, h2 => exact absurd (h2 x y z w rest rfl) id
    rw [this]
    simp

/-- The drain loop always stops in a stuck state: running it again on its
own residue makes no further progress. -/
theorem processBuffer_residue_stuck {V : Type} (parse : List Nat → Except String V)
    (fl : Option Nat) (a : List Nat) :
    processBuffer parse (processBuffer parse fl a).1 (processBuffer parse fl a).2.1 =
      ((processBuffer parse fl a).1, (processBuffer parse fl a).2.1, []) := by
  induction fl, a using processBuffer.induct parse
  case case1 fl => simp [processBuffer]
  case case2 k x buf h =>
    rw [processBuffer_some_stuck parse k (x :: buf) h]
    exact processBuffer_some_stuck parse k (x :: buf) h
  case case3 k x buf h ih =>
    rw [processBuffer_some_frame parse k (x :: buf) (by simp) h]
    exact ih
  case case4 b0 b1 b2 b3 rest k h =>
    simp only [processBuffer, h, if_pos]
    exact processBuffer_some_stuck parse _ rest h
  case case5 b0 b1 b2 b3 rest k h ih =>
    simp only [processBuffer, h, if_neg]
    exact ih
  case case6 buf h1 h2 =>
    have : processBuffer parse none buf = (none, buf, []) := by
      match buf, h1, h2 with
      | [], h1, _ => simp [processBuffer]
      | [x], _, _ => simp [processBuffer]
      | [x, y], _, _ => simp [processBuffer]
      | [x, y, z], _, _ => simp [processBuffer]
      | x :: y :: z :: w :: rest, h1, h2 => exact absurd (h2 x y z w rest rfl) id
    rw [this]
    exact this

theorem stuck_feed {V : Type} (parse : List Nat → Except String V)
    (s : DecState) (c : List Nat) : Stuck parse (feed parse s c).1 :=
  processBuffer_residue_stuck parse s.frameLen (s.buffer ++ c)

/-- One handler invocation on `c ++ d` equals two invocations on `c` then
`d`, outputs concatenated. -/
theorem feed_append {V : Type} (parse : List Nat → Except String V)
    (s : DecState) (c d : List Nat) :
    feed parse s (c ++ d) =
      ((feed parse (feed parse s c).1 d).1,
        (feed parse s c).2 ++ (feed parse (feed parse s c).1 d).2) := by
  unfold feed
  rw [← List.append_assoc, processBuffer_append parse s.frameLen (s.buffer ++ c) d]

theorem feedAll_eq_feed_flatten {V : Type} (parse : List Nat → Except String V)
    (chunks : List (List Nat)) :
    ∀ s : DecState, Stuck parse s →
      feedAll parse s chunks = feed parse s chunks.flatten := by
  induction chunks with
  | nil =>
    intro s hs
    unfold feedAll feed
    rw [List.flatten_nil, List.append_nil, hs]
  | cons c cs ih =>
    intro s hs
    rw [List.flatten_cons]
    show ((feedAll parse (feed parse s c).1 cs).1,
      (feed parse s c).2 ++ (feedAll parse (feed parse s c).1 cs).2) = _
    rw [ih (feed parse s c).1 (stuck_feed parse s c), feed_append parse s c cs.flatten]

/-- Recovery of `n` from its four little-endian bytes. -/
theorem readUInt32LE_writeUInt32LE (n : Nat) (h : n < 4294967296) :
    readUInt32LE (n % 256) (n / 256 % 256) (n / 65536 % 256) (n / 16777216 % 256) = n := by
  unfold readUInt32LE
  omega

/-- Draining a buffer beginning with one complete frame emits that frame
first (parsed, or reported to the peer as a framing error) and continues
with the remaining bytes. -/
theorem processBuffer_frame_prefix {V : Type} (parse : List Nat → Except String V)
    (p rest : List Nat) (h : p.length < 4294967296) :
    processBuffer parse none (frameBytes p ++ rest) =
      ((processBuffer parse none rest).1, (processBuffer parse none rest).2.1,
        handleFrame parse p :: (processBuffer parse none rest).2.2) := by
  show processBuffer parse none
      (p.length % 256 :: p.length / 256 % 256 :: p.length / 65536 % 256 ::
        p.length / 16777216 % 256 :: (p ++ rest)) = _
  have hk : readUInt32LE (p.length % 256) (p.length / 256 % 256)
      (p.length / 65536 % 256) (p.length / 16777216 % 256) = p.length :=
    readUInt32LE_writeUInt32LE p.length h
  have h2 : ¬ (p ++ rest).length < readUInt32LE (p.length % 256) (p.length / 256 % 256)
      (p.length / 65536 % 256) (p.length / 16777216 % 256) := by
    rw [hk, List.length_append]
    omega
  rw [hk] at h2
  simp only [processBuffer, hk]
  rw [if_neg h2, List.take_append_of_le_length (le_refl p.length),
    List.drop_append_of_le_length (le_refl p.length),
    List.take_length, List.drop_length, List.nil_append]

/-- Draining a buffer of complete frames emits one output per frame, in
order, leaving an empty residue. -/
theorem processBuffer_frames {V : Type} (parse : List Nat → Except String V)
    (ps : List (List Nat)) (h : ∀ p ∈ ps, p.length < 4294967296) :
    processBuffer parse none (ps.map frameBytes).flatten =
      (none, [], ps.map (handleFrame parse)) := by
  induction ps with
  | nil => simp [processBuffer]
  | cons p ps ih =>
    rw [List.map_cons, List.flatten_cons,
      processBuffer_frame_prefix parse p (List.map frameBytes ps).flatten
        (h p (by simp)),
      ih (fun q hq => h q (by simp [hq]))]
    simp

theorem runConn_wf_spec (ops : List ConnOp) :
    ∀ (sent : Nat) (delivered : List Nat) (c : ExtConn),
      wellFormedRun sent delivered ops = true → TrackerInv sent delivered c →
      sentIds (runConn c ops).2 = List.range' (sent + 1) (numSends ops) ∧
      settlements (runConn c ops).2 = deliveredPairs ops := by
  induction ops with
  | nil =>
    intro sent delivered c _ _
    simp [runConn, sentIds, settlements, deliveredPairs, numSends, List.range']
  | cons op ops ih =>
    intro sent delivered c hwf hinv
    obtain ⟨hlast, hnodup, hmem, hdel⟩ := hinv
    cases op with
    | send m p sid =>
      have hwf2 : wellFormedRun (sent + 1) delivered ops = true := by
        simpa [wellFormedRun] using hwf
      have hfresh : sent + 1 ∉ c.callbacks := by
        intro hin
        have := (hmem (sent + 1)).1 hin
        omega
      have hinv2 : TrackerInv (sent + 1) delivered ⟨sent + 1, c.callbacks ++ [sent + 1]⟩ := by
        refine ⟨rfl, ?_, ?_, ?_⟩
        · simp [List.nodup_append, hnodup, hfresh]
        · intro i
          rw [List.mem_append, List.mem_singleton, hmem i]
          constructor
          · rintro (⟨ha, hb, hc⟩ | rfl)
            · exact ⟨ha, by omega, hc⟩
            · refine ⟨by omega, le_refl _, fun hin => ?_⟩
              have := hdel _ hin
              omega
          · rintro ⟨ha, hb, hc⟩
            by_cases hi : i ≤ sent
            · exact Or.inl ⟨ha, hi, hc⟩
            · exact Or.inr (by omega)
        · intro i hi
          have := hdel i hi
          omega
      have hrec := ih (sent + 1) delivered ⟨sent + 1, c.callbacks ++ [sent + 1]⟩ hwf2 hinv2
      have hstep : runConn c (ConnOp.send m p sid :: ops) =
          ((runConn ⟨sent + 1, c.callbacks ++ [sent + 1]⟩ ops).1,
            ConnEvent.sent (sent + 1) m p sid ::
              (runConn ⟨sent + 1, c.callbacks ++ [sent + 1]⟩ ops).2) := by
        simp [runConn, ExtConn.send, hlast]
      rw [hstep]
      have hn : numSends (ConnOp.send m p sid :: ops) = numSends ops + 1 := by
        simp [numSends]
      rw [hn, List.range'_succ (sent + 1) (numSends ops) 1]
      constructor
      · show (sent + 1) :: sentIds (runConn ⟨sent + 1, c.callbacks ++ [sent + 1]⟩ ops).2 = _
        rw [hrec.1]
      · show settlements (runConn ⟨sent + 1, c.callbacks ++ [sent + 1]⟩ ops).2 = _
        rw [hrec.2]
        simp [deliveredPairs]
    | deliver m =>
      cases hm : m.id with
      | none =>
        rw [wellFormedRun, hm] at hwf
        exact absurd hwf (by simp)
      | some i =>
        rw [wellFormedRun, hm] at hwf
        simp only [Bool.and_eq_true, decide_eq_true_eq, Bool.not_eq_true'] at hwf
        obtain ⟨⟨⟨h1, h2⟩, h3⟩, h4⟩ := hwf
        have h3m : i ∉ delivered := by
          simpa using h3
        obtain ⟨j, rfl⟩ : ∃ j, i = j + 1 := ⟨i - 1, by omega⟩
        have hjmem : (j + 1) ∈ c.callbacks := (hmem (j + 1)).2 ⟨h1, h2, h3m⟩
        have hstep : runConn c (ConnOp.deliver m :: ops) =
            ((runConn ⟨c.lastId, c.callbacks.erase (j + 1)⟩ ops).1,
              ConnEvent.settled (j + 1) (ExtConn.outcomeOf m) ::
                (runConn ⟨c.lastId, c.callbacks.erase (j + 1)⟩ ops).2) := by
          simp [runConn, ExtConn.handleParsedMessage, hm, hjmem]
        have hinv2 : TrackerInv sent ((j + 1) :: delivered)
            ⟨c.lastId, c.callbacks.erase (j + 1)⟩ := by
          refine ⟨hlast, hnodup.erase _, ?_, ?_⟩
          · intro x
            rw [hnodup.mem_erase_iff, hmem x, List.mem_cons]
            constructor
            · rintro ⟨hne, ha, hb, hc⟩
              exact ⟨ha, hb, fun hin => hin.elim hne hc⟩
            · rintro ⟨ha, hb, hc⟩
              exact ⟨fun he => hc (Or.inl he), ha, hb, fun hin => hc (Or.inr hin)⟩
          · intro x hx
            rcases List.mem_cons.1 hx with rfl | hx
            · exact ⟨h1, h2⟩
            · exact hdel x hx
        have hrec := ih sent ((j + 1) :: delivered)
          ⟨c.lastId, c.callbacks.erase (j + 1)⟩ h4 hinv2
        rw [hstep]
        have hn : numSends (ConnOp.deliver m :: ops) = numSends ops := by
          simp [numSends]
        rw [hn]
        constructor
        · show sentIds (runConn ⟨c.lastId, c.callbacks.erase (j + 1)⟩ ops).2 = _
          rw [hrec.1]
        · show ((j + 1), ExtConn.outcomeOf m) ::
            settlements (runConn ⟨c.lastId, c.callbacks.erase (j + 1)⟩ ops).2 = _
          rw [hrec.2]
          simp [deliveredPairs, hm]

/-- A well-formed run never answers the same id twice: the delivered ids
are pairwise distinct and avoid the accumulator. -/
theorem wf_deliveredPairs_nodup (ops : List ConnOp) :
    ∀ (sent : Nat) (delivered : List Nat), wellFormedRun sent delivered ops = true →
      ((deliveredPairs ops).map Prod.fst).Nodup ∧
        ∀ p ∈ deliveredPairs ops, p.1 ∉ delivered := by
  induction ops with
  | nil =>
    intro sent delivered _
    simp [deliveredPairs]
  | cons op ops ih =>
    intro sent delivered hwf
    cases op with
    | send m p sid =>
      have hwf2 : wellFormedRun (sent + 1) delivered ops = true := by
        simpa [wellFormedRun] using hwf
      have := ih (sent + 1) delivered hwf2
      simpa [deliveredPairs] using this
    | deliver m =>
      cases hm : m.id with
      | none =>
        rw [wellFormedRun, hm] at hwf
        exact absurd hwf (by simp)
      | some i =>
        rw [wellFormedRun, hm] at hwf
        simp only [Bool.and_eq_true, decide_eq_true_eq, Bool.not_eq_true'] at hwf
        obtain ⟨⟨⟨h1, h2⟩, h3⟩, h4⟩ := hwf
        have h3m : i ∉ delivered := by
          simpa using h3
        have hrec := ih sent (i :: delivered) h4
        have hpairs : deliveredPairs (ConnOp.deliver m :: ops) =
            (i, ExtConn.outcomeOf m) :: deliveredPairs ops := by
          simp [deliveredPairs, hm]
        rw [hpairs]
        constructor
        · rw [List.map_cons, List.nodup_cons]
          refine ⟨fun hin => ?_, hrec.1⟩
          obtain ⟨p, hp, hpi⟩ := List.mem_map.1 hin
          exact (hrec.2 p hp) (hpi ▸ List.mem_cons_self i delivered)
        · intro p hp
          rcases List.mem_cons.1 hp with rfl | hp
          · exact h3m
          · intro hin
            exact (hrec.2 p hp) (List.mem_cons_of_mem i hin)

/-! ## Claim theorems -/

/-- C3: the length-prefixed framing decoder is boundary-insensitive.  For
every byte stream and every partition of it into chunks (including splits
mid-length-prefix and mid-payload), feeding the chunks to the decoder one
handler invocation at a time yields exactly the same final decoder state
and the same ordered sequence of emitted messages as feeding the whole
stream as a single chunk; in particular a single chunk containing zero,
one, or many complete frames is handled.  The statement holds for every
parse function, hence in particular for streams of well-formed frames. -/
theorem framing_boundary_insensitive {V : Type} (parse : List Nat → Except String V)
    (chunks : List (List Nat)) :
    feedAll parse initDecState chunks = feed parse initDecState chunks.flatten :=
  feedAll_eq_feed_flatten parse chunks initDecState (by unfold Stuck; simp [initDecState, processBuffer])

/-- C4: a frame whose payload fails to parse is reported to the peer as a
framed error envelope, and every complete frame after it is still parsed
and emitted: the outputs for the subsequent frames are exactly those the
decoder would produce for them alone (one output per frame, via
`handleFrame`). -/
theorem parse_failure_isolated {V : Type} (parse : List Nat → Except String V)
    (bad : List Nat) (e : String) (ps : List (List Nat))
    (hbad : parse bad = .error e) (hlen : bad.length < 4294967296)
    (hps : ∀ p ∈ ps, p.length < 4294967296) :
    (feed parse initDecState (frameBytes bad ++ (ps.map frameBytes).flatten)).2 =
      HostOut.errorToPeer ("Failed to parse message: " ++ e) ::
        (feed parse initDecState ((ps.map frameBytes).flatten)).2 ∧
    (feed parse initDecState ((ps.map frameBytes).flatten)).2 =
      ps.map (handleFrame parse) := by
  have h2 : (feed parse initDecState ((ps.map frameBytes).flatten)).2 =
      ps.map (handleFrame parse) := by
    show (processBuffer parse none ([] ++ (ps.map frameBytes).flatten)).2.2 = _
    rw [List.nil_append, processBuffer_frames parse ps hps]
  refine ⟨?_, h2⟩
  show (processBuffer parse none ([] ++ (frameBytes bad ++ (ps.map frameBytes).flatten))).2.2 = _
  rw [List.nil_append, processBuffer_frame_prefix parse bad (ps.map frameBytes).flatten hlen]
  show handleFrame parse bad :: _ = _
  rw [show handleFrame parse bad = HostOut.errorToPeer ("Failed to parse message: " ++ e) by
    rw [handleFrame, hbad]]
  rfl

/-- C4 witness at a concrete input: payload `[5]` fails to parse while the
two subsequent frames `[7]` parse; the bad frame yields a framed error to
the peer and both later frames are still emitted. -/
theorem parse_failure_isolated_witness :
    (feed (fun l => if l = [7] then Except.ok true else Except.error "bad json")
        initDecState
        (frameBytes [5] ++ (([[7], [7]]).map frameBytes).flatten)).2 =
      HostOut.errorToPeer ("Failed to parse message: " ++ "bad json") ::
        (feed (fun l => if l = [7] then Except.ok true else Except.error "bad json")
          initDecState ((([[7], [7]]).map frameBytes).flatten)).2 :=
  (parse_failure_isolated
    (fun l => if l = [7] then Except.ok true else Except.error "bad json")
    [5] "bad json" [[7], [7]] (by rfl) (by decide) (by decide)).1

/-- C1: interleaved `send` calls allocate ids `1, 2, 3, ...` by `++lastId`
(strictly increasing, pairwise distinct), and in every well-formed run —
responses answering earlier calls, delivered in any permutation and with
any interleaving — each delivered response settles precisely the promise
registered under its own id and never another one: the sequence of
settlements is, in delivery order, exactly the (id, outcome) pairs of the
delivered messages themselves, where a message with an error field rejects
with that error message and a message without one resolves with its
result; and no id is ever settled twice. -/
theorem send_correlation (ops : List ConnOp) (h : wellFormedRun 0 [] ops = true) :
    sentIds (runConn initExtConn ops).2 = List.range' 1 (numSends ops) ∧
    (sentIds (runConn initExtConn ops).2).Pairwise (· < ·) ∧
    settlements (runConn initExtConn ops).2 =
      (ops.filterMap fun op => match op with
        | .deliver m => some (m.id.getD 0,
            match m.error with
            | some e => Outcome.rejected e
            | none => Outcome.resolved m.result)
        | _ => none) ∧
    ((settlements (runConn initExtConn ops).2).map Prod.fst).Nodup := by
  have hinv : TrackerInv 0 [] initExtConn := by
    refine ⟨rfl, List.nodup_nil, ?_, ?_⟩
    · intro i
      simp [initExtConn]
      omega
    · intro i hi
      cases hi
  have hspec := runConn_wf_spec ops 0 [] initExtConn h hinv
  have hnd := wf_deliveredPairs_nodup ops 0 [] h
  have hpairs : (ops.filterMap fun op => match op with
        | ConnOp.deliver m => some (m.id.getD 0,
            match m.error with
            | some e => Outcome.rejected e
            | none => Outcome.resolved m.result)
        | _ => none) = deliveredPairs ops := by
    unfold deliveredPairs
    congr 1
  refine ⟨hspec.1, ?_, ?_, ?_⟩
  · rw [hspec.1]
    exact List.pairwise_lt_range' 1 (numSends ops) 1
  · rw [hspec.2, hpairs]
  · rw [hspec.2]
    exact hnd.1

/-- C1 witness: two sends answered out of order; the first call rejects
with the error message of the response bearing id 1, the second resolves
with the result of the response bearing id 2. -/
theorem send_correlation_witness :
    wellFormedRun 0 []
      [ConnOp.send "m1" none none, ConnOp.send "m2" none none,
        ConnOp.deliver { id := some 2, result := some (J.str "r2") },
        ConnOp.deliver { id := some 1, error := some "boom" }] = true ∧
    (sentIds (runConn initExtConn
      [ConnOp.send "m1" none none, ConnOp.send "m2" none none,
        ConnOp.deliver { id := some 2, result := some (J.str "r2") },
        ConnOp.deliver { id := some 1, error := some "boom" }]).2 =
      List.range' 1 (numSends
        [ConnOp.send "m1" none none, ConnOp.send "m2" none none,
          ConnOp.deliver { id := some 2, result := some (J.str "r2") },
          ConnOp.deliver { id := some 1, error := some "boom" }])) :=
  ⟨by rfl, (send_correlation
    [ConnOp.send "m1" none none, ConnOp.send "m2" none none,
      ConnOp.deliver { id := some 2, result := some (J.str "r2") },
      ConnOp.deliver { id := some 1, error := some "boom" }] (by rfl)).1⟩

/-- C2 (behaviour at the failing input): with requests 1 and 2 in flight,
`close()` fires only the `onclose` callback — it settles nothing and the
pending table still holds both ids, so both promises stay pending forever.
`_dispose()`, which would reject exactly the pending entries with the
channel-closed error and clear the table, is dead code: nothing registers
`_onClose` on the `NativeMessagingHost` transport. -/
theorem close_leaves_pending :
    ExtConn.close (runConn initExtConn [ConnOp.send "m1" none none, ConnOp.send "m2" none none]).1 =
      ((runConn initExtConn [ConnOp.send "m1" none none, ConnOp.send "m2" none none]).1,
        [ConnEvent.oncloseFired]) ∧
    (runConn initExtConn [ConnOp.send "m1" none none, ConnOp.send "m2" none none]).1.callbacks = [1, 2] ∧
    (ExtConn.dispose (runConn initExtConn [ConnOp.send "m1" none none, ConnOp.send "m2" none none]).1).2 =
      [ConnEvent.settled 1 (Outcome.rejected "WebSocket closed"),
        ConnEvent.settled 2 (Outcome.rejected "WebSocket closed")] ∧
    (ExtConn.dispose (runConn initExtConn [ConnOp.send "m1" none none, ConnOp.send "m2" none none]).1).1.callbacks
      = [] :=
  ⟨rfl, rfl, rfl, rfl⟩

/-- C9 (behaviour at the failing input): the `detachFromTab` command
propagates the rejection of `chrome.debugger.detach` when the debugger is
already detached, instead of completing without error; with the debugger
attached it succeeds. -/
theorem detachFromTab_already_detached_raises :
    onCommandDetachFromTab false = Except.error "Debugger is not attached to the tab" ∧
    onCommandDetachFromTab true = Except.ok false :=
  ⟨rfl, rfl⟩

/-- C5: a consumer command arriving while the relay holds no extension
connection is answered immediately with an "Extension not connected"
error; nothing is sent to the extension and the relay state is unchanged —
in particular nothing is queued or buffered. -/
theorem no_extension_immediate_error (ext : ExtResponder) (s : RelayState)
    (message : CDPCommand) (h : s.extensionConnected = false) :
    handlePlaywrightMessage ext s message =
      ([RelayAction.toPlaywright
          { id := some message.id, error := some ⟨"Extension not connected"⟩ }],
        Except.ok ()) ∧
    (∀ m, RelayAction.toExtension m ∉ (handlePlaywrightMessage ext s message).1) ∧
    applyActions s (handlePlaywrightMessage ext s message).1 = s := by
  have h1 : handlePlaywrightMessage ext s message =
      ([RelayAction.toPlaywright
          { id := some message.id, error := some ⟨"Extension not connected"⟩ }],
        Except.ok ()) := by
    rw [handlePlaywrightMessage, if_pos h]
  refine ⟨h1, ?_, ?_⟩
  · intro m hm
    rw [h1] at hm
    simp at hm
  · rw [h1]
    rfl

/-- C5 witness: `Target.setAutoAttach` with id 2 and no extension
connected yields exactly the id-2 "Extension not connected" error. -/
theorem no_extension_immediate_error_witness :
    handlePlaywrightMessage
        ⟨Except.error "unused", fun _ _ _ => Except.error "unused"⟩
        { playwrightSocket := some ⟨1, WebSocketOPEN⟩, extensionConnected := false,
          connectionInfo := none }
        { id := 2, method := "Target.setAutoAttach", params := some (J.obj []) } =
      ([RelayAction.toPlaywright
          { id := some 2, error := some ⟨"Extension not connected"⟩ }],
        Except.ok ()) :=
  (no_extension_immediate_error
    ⟨Except.error "unused", fun _ _ _ => Except.error "unused"⟩
    { playwrightSocket := some ⟨1, WebSocketOPEN⟩, extensionConnected := false,
      connectionInfo := none }
    { id := 2, method := "Target.setAutoAttach", params := some (J.obj []) } rfl).1

/-- C6: a root `Target.setAutoAttach` (no sessionId, extension connected,
`attachToTab` answering with `info`) performs the attachToTab round-trip,
stores the returned connection info, sends the consumer the fabricated
`Target.attachedToTarget` event carrying the stored session id and the
stored target info spread with `attached: true`, and only afterwards sends
the acknowledgement bearing the command id.  With a sessionId present the
command is instead forwarded to the extension, the first effect being the
`forwardCDPCommand` message carrying the original sessionId, method and
params. -/
theorem setAutoAttach_intercepted (ext : ExtResponder) (s : RelayState)
    (id : Nat) (params : Option J) (info : ConnectionInfo) (sid : String)
    (hconn : s.extensionConnected = true) (hatt : ext.attachToTab = Except.ok info)
    (hsid : sid ≠ "") :
    handlePlaywrightMessage ext s
        { id := id, sessionId := none, method := "Target.setAutoAttach",
          params := params } =
      ([RelayAction.toExtension ExtMsg.attachToTab,
        RelayAction.setConnectionInfo (some info),
        RelayAction.toPlaywright (attachedToTargetEvent info),
        RelayAction.toPlaywright { id := some id }], Except.ok ()) ∧
    (applyActions s (handlePlaywrightMessage ext s
        { id := id, sessionId := none, method := "Target.setAutoAttach",
          params := params }).1).connectionInfo = some info ∧
    handlePlaywrightMessage ext s
        { id := id, sessionId := some sid, method := "Target.setAutoAttach",
          params := params } =
      (forwardToExtension ext s
        { id := id, sessionId := some sid, method := "Target.setAutoAttach",
          params := params }, Except.ok ()) ∧
    (handlePlaywrightMessage ext s
        { id := id, sessionId := some sid, method := "Target.setAutoAttach",
          params := params }).1.head? =
      some (RelayAction.toExtension
        (ExtMsg.forwardCDPCommand (some sid) "Target.setAutoAttach" params)) := by
  have h1 : handlePlaywrightMessage ext s
      { id := id, sessionId := none, method := "Target.setAutoAttach",
        params := params } =
      ([RelayAction.toExtension ExtMsg.attachToTab,
        RelayAction.setConnectionInfo (some info),
        RelayAction.toPlaywright (attachedToTargetEvent info),
        RelayAction.toPlaywright { id := some id }], Except.ok ()) := by
    simp [handlePlaywrightMessage, interceptCDPCommand, strTruthy, hconn, hatt]
  have h3 : handlePlaywrightMessage ext s
      { id := id, sessionId := some sid, method := "Target.setAutoAttach",
        params := params } =
      (forwardToExtension ext s
        { id := id, sessionId := some sid, method := "Target.setAutoAttach",
          params := params }, Except.ok ()) := by
    simp [handlePlaywrightMessage, interceptCDPCommand, strTruthy, hconn, hsid]
  refine ⟨h1, ?_, h3, ?_⟩
  · rw [h1]
    rfl
  · rw [h3]
    show (forwardToExtension ext s _).head? = _
    rw [forwardToExtension, if_pos hconn]
    rfl

/-- C6 witness at a concrete responder and state. -/
theorem setAutoAttach_intercepted_witness :
    handlePlaywrightMessage
        ⟨Except.ok ⟨[("targetId", J.str "T1")], "pw-tab-7"⟩,
          fun _ _ _ => Except.error "unused"⟩
        { playwrightSocket := some ⟨1, WebSocketOPEN⟩, extensionConnected := true,
          connectionInfo := none }
        { id := 5, sessionId := none, method := "Target.setAutoAttach",
          params := some (J.obj []) } =
      ([RelayAction.toExtension ExtMsg.attachToTab,
        RelayAction.setConnectionInfo (some ⟨[("targetId", J.str "T1")], "pw-tab-7"⟩),
        RelayAction.toPlaywright
          (attachedToTargetEvent ⟨[("targetId", J.str "T1")], "pw-tab-7"⟩),
        RelayAction.toPlaywright { id := some 5 }], Except.ok ()) :=
  (setAutoAttach_intercepted
    ⟨Except.ok ⟨[("targetId", J.str "T1")], "pw-tab-7"⟩,
      fun _ _ _ => Except.error "unused"⟩
    { playwrightSocket := some ⟨1, WebSocketOPEN⟩, extensionConnected := true,
      connectionInfo := none }
    5 (some (J.obj [])) ⟨[("targetId", J.str "T1")], "pw-tab-7"⟩ "child"
    rfl rfl (by decide)).1

/-- C7 counterexample: the claim quantifies over every consumer command,
but when no extension connection is held the relay answers
`Browser.getVersion` (id 1) with the "Extension not connected" error and
sends no result response at all — it does not respond with the static
version descriptor. -/
theorem getVersion_not_connected_counterexample :
    (handlePlaywrightMessage
        ⟨Except.error "unused", fun _ _ _ => Except.error "unused"⟩
        { playwrightSocket := some ⟨1, WebSocketOPEN⟩, extensionConnected := false,
          connectionInfo := none }
        { id := 1, method := "Browser.getVersion" }).1 =
      [RelayAction.toPlaywright
        { id := some 1, error := some ⟨"Extension not connected"⟩ }] ∧
    (handlePlaywrightMessage
        ⟨Except.error "unused", fun _ _ _ => Except.error "unused"⟩
        { playwrightSocket := some ⟨1, WebSocketOPEN⟩, extensionConnected := false,
          connectionInfo := none }
        { id := 1, method := "Browser.getVersion" }).1 ≠
      [RelayAction.toPlaywright { id := some 1, result := some versionResult }] := by
  refine ⟨rfl, ?_⟩
  intro hm
  simp [handlePlaywrightMessage] at hm

/-- C7 amended: while an extension connection is held, `Browser.getVersion`
is answered locally with the static descriptor — protocol version "1.3",
product "Chrome/Extension-Bridge", user agent "CDP-Bridge-Server/1.0.0"
(see `versionResult`) — under the command id, and no message is sent to
the extension connection for this command. -/
theorem getVersion_static (ext : ExtResponder) (s : RelayState) (id : Nat)
    (sid : Option String) (params : Option J) (hconn : s.extensionConnected = true) :
    handlePlaywrightMessage ext s
        { id := id, sessionId := sid, method := "Browser.getVersion",
          params := params } =
      ([RelayAction.toPlaywright { id := some id, result := some versionResult }],
        Except.ok ()) ∧
    ∀ m, RelayAction.toExtension m ∉ (handlePlaywrightMessage ext s
      { id := id, sessionId := sid, method := "Browser.getVersion",
        params := params }).1 := by
  have h1 : handlePlaywrightMessage ext s
      { id := id, sessionId := sid, method := "Browser.getVersion",
        params := params } =
      ([RelayAction.toPlaywright { id := some id, result := some versionResult }],
        Except.ok ()) := by
    simp [handlePlaywrightMessage, interceptCDPCommand, hconn]
  refine ⟨h1, ?_⟩
  intro m hm
  rw [h1] at hm
  simp at hm

/-- C7 amended-claim witness: id 1, extension connected. -/
theorem getVersion_static_witness :
    handlePlaywrightMessage
        ⟨Except.error "unused", fun _ _ _ => Except.error "unused"⟩
        { playwrightSocket := some ⟨1, WebSocketOPEN⟩, extensionConnected := true,
          connectionInfo := none }
        { id := 1, method := "Browser.getVersion" } =
      ([RelayAction.toPlaywright { id := some 1, result := some versionResult }],
        Except.ok ()) :=
  (getVersion_static
    ⟨Except.error "unused", fun _ _ _ => Except.error "unused"⟩
    { playwrightSocket := some ⟨1, WebSocketOPEN⟩, extensionConnected := true,
      connectionInfo := none }
    1 none none rfl).1

/-- C8 counterexample: at a state with a current consumer socket, an
extension connection and stored connection info, the close handler first
clears the connection info and only then sends `detachFromTab` — the
`detachFromTab` request never precedes the clearing of `ConnectionInfo`
in the effect trace, refuting the claimed order. -/
theorem detach_order_counterexample :
    onPlaywrightClose
        { playwrightSocket := some ⟨1, WebSocketOPEN⟩, extensionConnected := true,
          connectionInfo := some ⟨[("targetId", J.str "T1")], "pw-tab-7"⟩ } 1 =
      [RelayAction.setConnectionInfo none, RelayAction.toExtension ExtMsg.detachFromTab,
        RelayAction.setPlaywrightSocket none] ∧
    ¬ precedesIn (RelayAction.toExtension ExtMsg.detachFromTab)
        (RelayAction.setConnectionInfo none)
        (onPlaywrightClose
          { playwrightSocket := some ⟨1, WebSocketOPEN⟩, extensionConnected := true,
            connectionInfo := some ⟨[("targetId", J.str "T1")], "pw-tab-7"⟩ } 1) := by
  refine ⟨rfl, ?_⟩
  rw [show onPlaywrightClose
      { playwrightSocket := some ⟨1, WebSocketOPEN⟩, extensionConnected := true,
        connectionInfo := some ⟨[("targetId", J.str "T1")], "pw-tab-7"⟩ } 1 =
      [RelayAction.setConnectionInfo none, RelayAction.toExtension ExtMsg.detachFromTab,
        RelayAction.setPlaywrightSocket none] from rfl]
  rintro ⟨l1, l2, l3, h⟩
  rcases l1 with _ | ⟨x1, l1⟩
  · simp at h
  · rcases l1 with _ | ⟨x2, l1⟩
    · rcases l2 with _ | ⟨y, l2⟩
      · simp at h
      · simp at h
    · rcases l1 with _ | ⟨x3, l1⟩
      · simp at h
      · simp at h

/-- C8 amended: whenever the current consumer socket closes with the
extension connected, the relay clears `ConnectionInfo` and then issues a
detachFromTab request to the extension (best-effort, the handler does not
await it), before clearing the consumer socket — so the native debugger
is released even when the consumer vanished abnormally. -/
theorem consumer_close_detaches (s : RelayState) (ws : WSocket)
    (hws : s.playwrightSocket = some ws) (hconn : s.extensionConnected = true) :
    onPlaywrightClose s ws.id =
      [RelayAction.setConnectionInfo none, RelayAction.toExtension ExtMsg.detachFromTab,
        RelayAction.setPlaywrightSocket none] ∧
    precedesIn (RelayAction.setConnectionInfo none)
      (RelayAction.toExtension ExtMsg.detachFromTab) (onPlaywrightClose s ws.id) ∧
    (applyActions s (onPlaywrightClose s ws.id)).connectionInfo = none ∧
    (applyActions s (onPlaywrightClose s ws.id)).playwrightSocket = none := by
  have h1 : onPlaywrightClose s ws.id =
      [RelayAction.setConnectionInfo none, RelayAction.toExtension ExtMsg.detachFromTab,
        RelayAction.setPlaywrightSocket none] := by
    simp [onPlaywrightClose, hws, hconn]
  refine ⟨h1, ?_, ?_, ?_⟩
  · rw [h1]
    exact ⟨[], [], [RelayAction.setPlaywrightSocket none], rfl⟩
  · rw [h1]
    rfl
  · rw [h1]
    rfl

/-- C8 amended-claim witness at a concrete state. -/
theorem consumer_close_detaches_witness :
    onPlaywrightClose
        { playwrightSocket := some ⟨1, WebSocketOPEN⟩, extensionConnected := true,
          connectionInfo := some ⟨[("targetId", J.str "T1")], "pw-tab-7"⟩ }
        (WSocket.mk 1 WebSocketOPEN).id =
      [RelayAction.setConnectionInfo none, RelayAction.toExtension ExtMsg.detachFromTab,
        RelayAction.setPlaywrightSocket none] :=
  (consumer_close_detaches
    { playwrightSocket := some ⟨1, WebSocketOPEN⟩, extensionConnected := true,
      connectionInfo := some ⟨[("targetId", J.str "T1")], "pw-tab-7"⟩ }
    ⟨1, WebSocketOPEN⟩ rfl rfl).1

/-- C10: when a second consumer socket connects while the current one is
open, the relay closes the old socket with code 1000 and installs the new
socket as the sole consumer; the displaced socket close handler, guarded
by the identity check against the current socket, performs no effect —
the connection info, the extension connection and (no `detachFromTab`
being sent) the native debugger attachment are unchanged by the
replacement. -/
theorem second_consumer_replaces (s : RelayState) (oldWs newWs : WSocket)
    (hold : s.playwrightSocket = some oldWs) (hopen : oldWs.readyState = WebSocketOPEN)
    (hne : oldWs.id ≠ newWs.id) :
    acceptPlaywrightConnection s newWs =
      [RelayAction.closeSocket oldWs.id 1000 "New connection established",
        RelayAction.setPlaywrightSocket (some newWs)] ∧
    (applyActions s (acceptPlaywrightConnection s newWs)).playwrightSocket =
      some newWs ∧
    onPlaywrightClose (applyActions s (acceptPlaywrightConnection s newWs)) oldWs.id
      = [] ∧
    applyActions (applyActions s (acceptPlaywrightConnection s newWs))
        (onPlaywrightClose (applyActions s (acceptPlaywrightConnection s newWs))
          oldWs.id) =
      applyActions s (acceptPlaywrightConnection s newWs) ∧
    (applyActions s (acceptPlaywrightConnection s newWs)).connectionInfo =
      s.connectionInfo ∧
    (applyActions s (acceptPlaywrightConnection s newWs)).extensionConnected =
      s.extensionConnected := by
  have h1 : acceptPlaywrightConnection s newWs =
      [RelayAction.closeSocket oldWs.id 1000 "New connection established",
        RelayAction.setPlaywrightSocket (some newWs)] := by
    simp [acceptPlaywrightConnection, hold, hopen]
  have h2 : applyActions s (acceptPlaywrightConnection s newWs) =
      { s with playwrightSocket := some newWs } := by
    rw [h1]
    rfl
  have h3 : onPlaywrightClose { s with playwrightSocket := some newWs } oldWs.id
      = [] := by
    simp [onPlaywrightClose]
    omega
  refine ⟨h1, by rw [h2], ?_, ?_, by rw [h2], by rw [h2]⟩
  · rw [h2]
    exact h3
  · rw [h2, h3]
    rfl

/-- C10 witness: distinct sockets 1 (open, current) and 2. -/
theorem second_consumer_replaces_witness :
    acceptPlaywrightConnection
        { playwrightSocket := some ⟨1, WebSocketOPEN⟩, extensionConnected := true,
          connectionInfo := some ⟨[("targetId", J.str "T1")], "pw-tab-7"⟩ }
        ⟨2, WebSocketOPEN⟩ =
      [RelayAction.closeSocket 1 1000 "New connection established",
        RelayAction.setPlaywrightSocket (some ⟨2, WebSocketOPEN⟩)] :=
  (second_consumer_replaces
    { playwrightSocket := some ⟨1, WebSocketOPEN⟩, extensionConnected := true,
      connectionInfo := some ⟨[("targetId", J.str "T1")], "pw-tab-7"⟩ }
    ⟨1, WebSocketOPEN⟩ ⟨2, WebSocketOPEN⟩ rfl rfl (by decide)).1

end PlaywrightMcp
